import Mathlib

/-!
Verification of the bcnotif feed-acquisition and configuration pipeline.

This file shallowly embeds the Rust sources (`src/config/mod.rs`,
`src/config/generation.rs`, `src/feed/mod.rs`, `src/feed/scrape.rs`) in Lean:

* YAML documents are modelled by the inductive `Yaml`; the `real` constructor
  carries the results of the standard library's string-to-`f32` and
  string-to-`u32` parses of its textual form (those parses are external to the
  repository).
* Rust `f32` values are modelled exactly by `ℚ` (the clamping and default
  logic of the config layer only compares and substitutes values), and `u32`
  by `Nat` with an explicit wrap at `2 ^ 32` where the code casts.
* The ambient clock read `Local::today()` inside `WeekdaySpike::get_for_today`
  is modelled by an explicit `LocalDate` environment parameter.
* Fallible Rust code returns `Option` / `Except`; the out-of-bounds vector
  index in `Config::from_file` is modelled by the `panic` outcome.
-/

/-- Model of `yaml_rust::Yaml`. `real` stands for `Yaml::Real(s)` and carries
the result of `s.parse::<f32>()` (as an exact rational) and of
`s.parse::<u32>()`, abstracting the external string parsers. -/
inductive Yaml where
  | integer (n : Int)
  | real (asF32 : Option ℚ) (asU32 : Option Nat)
  | string (s : String)
  | hash (entries : List (String × Yaml))
  | array (elems : List Yaml)
  | badValue

/-- Model of `Yaml`'s `Index<&str>` impl: hash lookup, `BadValue` otherwise. -/
def Yaml.idx (doc : Yaml) (key : String) : Yaml :=
  match doc with
  | .hash entries =>
    match entries.lookup key with
    | some v => v
    | none => .badValue
  | _ => .badValue

/-- Model of `Yaml::is_badvalue`. -/
def Yaml.is_badvalue (doc : Yaml) : Bool :=
  match doc with
  | .badValue => true
  | _ => false

/-- Model of `Yaml::as_vec`. -/
def Yaml.as_vec (doc : Yaml) : Option (List Yaml) :=
  match doc with
  | .array elems => some elems
  | _ => none

/-- Embeds `impl ParseYaml for f32` (src/config/mod.rs lines 191-208): an integer
token casts, a real token uses the string parse, anything else fails. -/
def parseF32 (doc : Yaml) : Option ℚ :=
  match doc with
  | .integer n => some (n : ℚ)
  | .real f _ => f
  | _ => none

/-- Embeds `impl ParseYaml for u32`: `Integer(num) => Some(num as u32)` is the
wrapping cast, modelled by `emod` at `2 ^ 32`. -/
def parseU32 (doc : Yaml) : Option Nat :=
  match doc with
  | .integer n => some ((n % (2 ^ 32 : Int)).toNat)
  | .real _ u => u
  | _ => none

/-- Embeds `impl ParseYaml for String`. -/
def parseString (doc : Yaml) : Option String :=
  match doc with
  | .string s => some s
  | _ => none

/-- Embeds `ParseYaml::all` (src/config/mod.rs lines 182-188): a non-array yields
the empty list; elements that fail to parse are dropped. -/
def parseAll {α : Type} (f : Yaml → Option α) (doc : Yaml) : List α :=
  (doc.as_vec.getD []).filterMap f

/-- The `[min, default]` rule of `gen_struct_value` (generation.rs lines
25-28): clamp the parsed-or-default value up to the minimum. -/
def clampMin (lo v : ℚ) : ℚ :=
  if v < lo then lo else v

/-- Embeds `Spike` (src/config/mod.rs lines 18-23). `f32` fields are modelled by `ℚ`. -/
structure Spike where
  jump : ℚ
  low_listener_increase : ℚ
  high_listener_dec : ℚ
  high_listener_dec_every : ℚ
deriving DecidableEq, Repr

/-- Embeds `Default for Spike` generated by `create_config_struct` via `get_default!`. -/
def Spike.default : Spike :=
  ⟨0.3, 0.005, 0.02, 100⟩

/-- Embeds `ParseYaml for Spike` generated by `create_config_struct`: `jump` has a
plain literal default (no clamp); the other three fields use the
`[min, default]` rule. -/
def Spike.fromYaml (doc : Yaml) : Option Spike :=
  some
    { jump := (parseF32 (doc.idx "Jump Required")).getD 0.3
      low_listener_increase :=
        clampMin 0 ((parseF32 (doc.idx "Low Listener Increase")).getD 0.005)
      high_listener_dec :=
        clampMin 0 ((parseF32 (doc.idx "High Listener Decrease")).getD 0.02)
      high_listener_dec_every :=
        clampMin 1
          ((parseF32 (doc.idx "High Listener Decrease Per Listeners")).getD 100) }

/-- Embeds `UnskewedAverage` (src/config/mod.rs lines 25-30). -/
structure UnskewedAverage where
  reset_pcnt : ℚ
  adjust_pcnt : ℚ
  spikes_required : Nat
  jump_required : ℚ
deriving DecidableEq, Repr

/-- Embeds `Default for UnskewedAverage`. -/
def UnskewedAverage.default : UnskewedAverage :=
  ⟨0.15, 0.0075, 1, 4⟩

/-- Embeds `ParseYaml for UnskewedAverage`. -/
def UnskewedAverage.fromYaml (doc : Yaml) : Option UnskewedAverage :=
  some
    { reset_pcnt :=
        clampMin 0 ((parseF32 (doc.idx "Reset To Average Percentage")).getD 0.15)
      adjust_pcnt :=
        clampMin 0 ((parseF32 (doc.idx "Adjust to Average Percentage")).getD 0.0075)
      spikes_required := (parseU32 (doc.idx "Spikes Required")).getD 1
      jump_required :=
        clampMin 1.1 ((parseF32 (doc.idx "Jump Required To Set")).getD 4) }

/-- Embeds `State` (src/feed/scrape.rs): a state id and abbreviation. -/
structure State where
  id : Nat
  abbreviation : String
deriving DecidableEq, Repr

/-- Embeds `Feed` (src/feed): equality of records in the source is defined solely by
`id` (`impl PartialEq for Feed`, src/feed/mod.rs lines 131-135); the embedded
`Feed.sameId` below is that relation. -/
structure Feed where
  id : Nat
  name : String
  listeners : Nat
  state : State
  county : String
  alert : Option String
deriving DecidableEq, Repr

/-- Embeds `impl PartialEq for Feed` (src/feed/mod.rs lines 131-135): id-only. -/
def Feed.sameId (a b : Feed) : Bool :=
  a.id == b.id

/-- Embeds `FeedIdent` (src/config/mod.rs lines 32-37). -/
inductive FeedIdent where
  | Name (s : String)
  | ID (n : Nat)
  | County (s : String)
  | State (n : Nat)
deriving DecidableEq, Repr

/-- Embeds `FeedIdent::matches_feed` (src/config/mod.rs lines 39-49). -/
def FeedIdent.matches_feed (ident : FeedIdent) (feed : Feed) : Bool :=
  match ident with
  | .Name name => name == feed.name
  | .ID id => id == feed.id
  | .County c => c == feed.county
  | .State id => id == feed.state.id

/-- Embeds `ParseYaml for FeedIdent` as expanded from `create_config_enum`
(generation.rs lines 100-130): keys are probed in declaration order
`"Name"`, `"ID"`, `"County"`, `"State ID"`; a present key whose value fails
to parse falls through to the next key. -/
def FeedIdent.fromYaml (doc : Yaml) : Option FeedIdent :=
  let e1 := doc.idx "Name"
  match if e1.is_badvalue then none else (parseString e1).map FeedIdent.Name with
  | some v => some v
  | none =>
  let e2 := doc.idx "ID"
  match if e2.is_badvalue then none else (parseU32 e2).map FeedIdent.ID with
  | some v => some v
  | none =>
  let e3 := doc.idx "County"
  match if e3.is_badvalue then none else (parseString e3).map FeedIdent.County with
  | some v => some v
  | none =>
  let e4 := doc.idx "State ID"
  match if e4.is_badvalue then none else (parseU32 e4).map FeedIdent.State with
  | some v => some v
  | none => none

/-- Embeds `chrono::Weekday`. -/
inductive Weekday where
  | Mon | Tue | Wed | Thu | Fri | Sat | Sun
deriving DecidableEq, Repr

/-- Model of the value returned by `chrono::Local::today()`: the resolver
only consumes `.weekday()`, but the date carries more (modelled by `day`).
This environment parameter stands for the ambient clock read inside
`WeekdaySpike::get_for_today` (src/config/mod.rs line 67). -/
structure LocalDate where
  weekday : Weekday
  day : Nat
deriving DecidableEq, Repr

/-- Embeds `WeekdaySpike` (src/config/mod.rs lines 51-59). -/
inductive WeekdaySpike where
  | Sunday (s : Spike)
  | Monday (s : Spike)
  | Tuesday (s : Spike)
  | Wednesday (s : Spike)
  | Thursday (s : Spike)
  | Friday (s : Spike)
  | Saturday (s : Spike)
deriving DecidableEq, Repr

/-- Embeds `WeekdaySpike::get_for_today` (src/config/mod.rs lines 61-84), with the
`Local::today()` clock read made explicit as the `date` parameter: the first
entry in the list whose weekday tag equals the ambient weekday wins. -/
def WeekdaySpike.get_for_today (date : LocalDate) :
    List WeekdaySpike → Option Spike
  | [] => none
  | ws :: rest =>
    match date.weekday, ws with
    | .Mon, .Monday s => some s
    | .Tue, .Tuesday s => some s
    | .Wed, .Wednesday s => some s
    | .Thu, .Thursday s => some s
    | .Fri, .Friday s => some s
    | .Sat, .Saturday s => some s
    | .Sun, .Sunday s => some s
    | _, _ => WeekdaySpike.get_for_today date rest

/-- Embeds `ParseYaml for WeekdaySpike` from `create_config_enum`: probe the seven
weekday keys in declaration order; `Spike::from` never fails, so the first
present key wins. -/
def WeekdaySpike.fromYaml (doc : Yaml) : Option WeekdaySpike :=
  let e1 := doc.idx "Sunday"
  match if e1.is_badvalue then none else (Spike.fromYaml e1).map WeekdaySpike.Sunday with
  | some v => some v
  | none =>
  let e2 := doc.idx "Monday"
  match if e2.is_badvalue then none else (Spike.fromYaml e2).map WeekdaySpike.Monday with
  | some v => some v
  | none =>
  let e3 := doc.idx "Tuesday"
  match if e3.is_badvalue then none else (Spike.fromYaml e3).map WeekdaySpike.Tuesday with
  | some v => some v
  | none =>
  let e4 := doc.idx "Wednesday"
  match if e4.is_badvalue then none else (Spike.fromYaml e4).map WeekdaySpike.Wednesday with
  | some v => some v
  | none =>
  let e5 := doc.idx "Thursday"
  match if e5.is_badvalue then none else (Spike.fromYaml e5).map WeekdaySpike.Thursday with
  | some v => some v
  | none =>
  let e6 := doc.idx "Friday"
  match if e6.is_badvalue then none else (Spike.fromYaml e6).map WeekdaySpike.Friday with
  | some v => some v
  | none =>
  let e7 := doc.idx "Saturday"
  match if e7.is_badvalue then none else (Spike.fromYaml e7).map WeekdaySpike.Saturday with
  | some v => some v
  | none => none

/-- Embeds `FeedSetting` (src/config/mod.rs lines 86-90). -/
structure FeedSetting where
  ident : FeedIdent
  spike : Spike
  weekday_spikes : List WeekdaySpike
deriving DecidableEq, Repr

/-- Embeds `ParseYaml for FeedSetting`: `ident` uses the `fail` rule (`?` on the
probe of the entry itself), so an unparseable ident makes this parse return
`none`; `spike` defaults; `weekday_spikes` uses the `all` rule. -/
def FeedSetting.fromYaml (doc : Yaml) : Option FeedSetting :=
  (FeedIdent.fromYaml doc).map fun ident =>
    { ident
      spike := (Spike.fromYaml (doc.idx "Spike Percentages")).getD Spike.default
      weekday_spikes := parseAll WeekdaySpike.fromYaml (doc.idx "Weekday Spike Percentages") }

/-- Embeds `Misc` (src/config/mod.rs lines 92-97). -/
structure Misc where
  update_time : ℚ
  minimum_listeners : Nat
  state_feeds_id : Option Nat
  max_feeds : Nat
deriving DecidableEq, Repr

/-- Embeds `Default for Misc`. -/
def Misc.default : Misc :=
  ⟨6, 15, none, 10⟩

/-- Embeds `ParseYaml for Misc`. -/
def Misc.fromYaml (doc : Yaml) : Option Misc :=
  some
    { update_time := clampMin 5 ((parseF32 (doc.idx "Update Time")).getD 6)
      minimum_listeners := (parseU32 (doc.idx "Minimum Listeners")).getD 15
      state_feeds_id := parseU32 (doc.idx "State Feeds ID")
      max_feeds := (parseU32 (doc.idx "Maximum Feeds To Display")).getD 10 }

/-- Embeds `SortType` (src/config/mod.rs lines 99-102). -/
inductive SortType where
  | Listeners | Jump
deriving DecidableEq, Repr

/-- Embeds `ParseYaml for SortType` (string-matching form of `create_config_enum`). -/
def SortType.fromYaml (doc : Yaml) : Option SortType :=
  (parseString doc).bind fun s =>
    if s == "Listeners" then some .Listeners
    else if s == "Jump" then some .Jump
    else none

/-- Embeds `SortOrder` (src/config/mod.rs lines 104-107). -/
inductive SortOrder where
  | Ascending | Descending
deriving DecidableEq, Repr

/-- Embeds `ParseYaml for SortOrder`. -/
def SortOrder.fromYaml (doc : Yaml) : Option SortOrder :=
  (parseString doc).bind fun s =>
    if s == "Ascending" then some .Ascending
    else if s == "Descending" then some .Descending
    else none

/-- Embeds `Sorting` (src/config/mod.rs lines 109-112). -/
structure Sorting where
  sort_type : SortType
  sort_order : SortOrder
deriving DecidableEq, Repr

/-- Embeds `Default for Sorting`. -/
def Sorting.default : Sorting :=
  ⟨.Listeners, .Descending⟩

/-- Embeds `ParseYaml for Sorting`. -/
def Sorting.fromYaml (doc : Yaml) : Option Sorting :=
  some
    { sort_type := (SortType.fromYaml (doc.idx "Sort By")).getD .Listeners
      sort_order := (SortOrder.fromYaml (doc.idx "Sort Order")).getD .Descending }

/-- Embeds `Config` (src/config/mod.rs lines 146-155). -/
structure Config where
  global_spike : Spike
  unskewed_avg : UnskewedAverage
  weekday_spikes : List WeekdaySpike
  feed_settings : List FeedSetting
  misc : Misc
  sorting : Sorting
  blacklist : List FeedIdent
  whitelist : List FeedIdent
deriving DecidableEq, Repr

/-- Embeds `Default for Config` (derived; each field is its type's default). -/
def Config.default : Config :=
  { global_spike := Spike.default
    unskewed_avg := UnskewedAverage.default
    weekday_spikes := []
    feed_settings := []
    misc := Misc.default
    sorting := Sorting.default
    blacklist := []
    whitelist := [] }

/-- The field-by-field body of `Config::from_file` (the `gen_base_config`
expansion, src/config/mod.rs lines 138-140 and 146-155). -/
def Config.parse (doc : Yaml) : Config :=
  { global_spike := (Spike.fromYaml (doc.idx "Spike Percentage")).getD Spike.default
    unskewed_avg :=
      (UnskewedAverage.fromYaml (doc.idx "Unskewed Average")).getD UnskewedAverage.default
    weekday_spikes := parseAll WeekdaySpike.fromYaml (doc.idx "Weekday Spike Percentages")
    feed_settings := parseAll FeedSetting.fromYaml (doc.idx "Feed Settings")
    misc := (Misc.fromYaml (doc.idx "Misc")).getD Misc.default
    sorting := (Sorting.fromYaml (doc.idx "Feed Sorting")).getD Sorting.default
    blacklist := parseAll FeedIdent.fromYaml (doc.idx "Blacklist")
    whitelist := parseAll FeedIdent.fromYaml (doc.idx "Whitelist") }

/-- Embeds `ConfigError` (src/config/mod.rs lines 9-16). -/
inductive ConfigError where
  | Io
  | YAMLScan
deriving DecidableEq, Repr

/-- Outcome of running `Config::from_file`: an explicit result, or a panic
(the code can index `docs[0]` on an empty vector). -/
inductive LoadOutcome (α : Type) where
  | ok (a : α)
  | err (e : ConfigError)
  | panic
deriving DecidableEq, Repr

/-- Embeds `Config::from_file` (src/config/mod.rs lines 128-141). The file read and
the YAML loader are external; `read` is the result of `util::read_file` and
`docs` the result of `YamlLoader::load_from_str` on that content. `&doc[0]`
on an empty document vector is an out-of-bounds `Vec` index, i.e. a panic. -/
def Config.from_file (read : Except Unit String)
    (docs : Except Unit (List Yaml)) : LoadOutcome Config :=
  match read with
  | .error _ => .err .Io
  | .ok file =>
    if file.length == 0 then .ok Config.default
    else
      match docs with
      | .error _ => .err .YAMLScan
      | .ok ds =>
        match ds.head? with
        | none => .panic
        | some doc => .ok (Config.parse doc)

/-- Embeds `Config::get_feed_spike` (src/config/mod.rs lines 160-172), with the
ambient clock read of `get_for_today` made explicit as `date`. -/
def Config.get_feed_spike (cfg : Config) (date : LocalDate) (feed : Feed) : Spike :=
  match cfg.feed_settings.find? (fun s => s.ident.matches_feed feed) with
  | some setting =>
    (WeekdaySpike.get_for_today date setting.weekday_spikes).getD setting.spike
  | none =>
    (WeekdaySpike.get_for_today date cfg.weekday_spikes).getD cfg.global_spike

/-- Embeds `filter_whitelist_blacklist` (src/feed/mod.rs lines 137-153). Note the
blacklist retains a feed when **any** entry fails to match it (the source
literally writes `any(|entry| !entry.matches_feed(&feed))`). -/
def filter_whitelist_blacklist (cfg : Config) (feeds : List Feed) : List Feed :=
  let feeds :=
    if cfg.whitelist.length > 0 then
      feeds.filter fun feed => cfg.whitelist.any fun entry => entry.matches_feed feed
    else feeds
  if cfg.blacklist.length > 0 then
    feeds.filter fun feed => cfg.blacklist.any fun entry => ! entry.matches_feed feed
  else feeds

/-- Embeds `feeds.sort_by_key(|feed| feed.id)` (src/feed/mod.rs line 55): a stable
sort ascending by `id`. -/
def sortFeeds (feeds : List Feed) : List Feed :=
  feeds.mergeSort fun a b => a.id ≤ b.id

/-- Embeds `Vec::dedup` (src/feed/mod.rs line 56): removes consecutive elements
equal under `PartialEq` — for `Feed`, equal `id` — keeping the first of each
run. -/
def dedupFeeds : List Feed → List Feed
  | [] => []
  | [a] => [a]
  | a :: b :: rest =>
    if a.id == b.id then dedupFeeds (a :: rest) else a :: dedupFeeds (b :: rest)

/-- Embeds `AcquireError`: the `error_chain!` wrapping in src/feed/mod.rs lines
9-28, reduced to the two context tags used by `FeedSource::scrape`. -/
inductive AcquireError where
  | TopFeeds
  | StateFeeds
deriving DecidableEq, Repr

/-- Embeds `Feed::download_and_scrape` (src/feed/mod.rs lines 41-59) with the two
network fetch-and-scrape results supplied as parameters (`top` for
`FeedSource::Top`, `stateRes` for `FeedSource::State`, queried only when
`config.misc.state_feeds_id` is set). -/
def Feed.download_and_scrape (cfg : Config)
    (top stateRes : Except AcquireError (List Feed)) :
    Except AcquireError (List Feed) :=
  match top with
  | .error e => .error e
  | .ok topFeeds =>
    match cfg.misc.state_feeds_id, stateRes with
    | some _, .error e => .error e
    | some _, .ok stateFeeds =>
      .ok (dedupFeeds (sortFeeds (filter_whitelist_blacklist cfg (topFeeds ++ stateFeeds))))
    | none, _ =>
      .ok (dedupFeeds (sortFeeds (filter_whitelist_blacklist cfg topFeeds)))

/-- Embeds `ScrapeError` (src/feed/scrape.rs lines 8-18); the `ParseIntError` cause
carried by `FailedIntParse` is dropped, keeping the element name. -/
inductive ScrapeError where
  | NoElement (which : String)
  | FailedIntParse (which : String)
  | NoneFound
deriving DecidableEq, Repr

/-- A hyperlink as consumed by the scraper: its `href` attribute (if any)
and its text. -/
structure Anchor where
  href : Option String
  text : String
deriving DecidableEq, Repr

/-- Last index of a character in a list, if any. -/
def lastIndexOf (l : List Char) (c : Char) : Option Nat :=
  (List.range l.length).foldl
    (fun acc i => if l.get? i = some c then some i else acc) none

/-- Embeds `parse_link_id` (src/feed/scrape.rs lines 151-159): the substring after
the last slash, or `none` when there is no slash or nothing follows it. -/
def parse_link_id (url : String) : Option String :=
  let l := url.data
  match lastIndexOf l (Char.ofNat 47) with
  | none => none
  | some pos =>
    if pos + 1 ≥ l.length then none
    else some (String.mk (l.drop (pos + 1)))

/-- Model of Rust's `str::parse::<u32>` (std, external to the repository):
an optional leading plus sign, one or more ASCII digits, value below
`2 ^ 32`. -/
def parseU32String (s : String) : Option Nat :=
  let l := s.data
  let digits := match l with
    | c :: rest => if c = Char.ofNat 43 then rest else l
    | [] => []
  if digits.isEmpty then none
  else if digits.all Char.isDigit then
    let v := digits.foldl (fun acc c => acc * 10 + (c.toNat - 48)) 0
    if v < 2 ^ 32 then some v else none
  else none

/-- Embeds `parse_id_and_name` (src/feed/scrape.rs lines 124-136), taking the query
result for the class-tagged anchor (`node.find(Class(cls).descendant(a)).next()`)
as input. The `FailedIntParse` tag is the source's literal `"state id"`. -/
def parse_id_and_name (idName : Option Anchor) :
    Except ScrapeError (Nat × String) :=
  match idName with
  | none => .error (.NoElement "id and name")
  | some base =>
    match base.href.bind parse_link_id with
    | none => .error (.NoElement "feed id")
    | some idStr =>
      match parseU32String idStr with
      | none => .error (.FailedIntParse "state id")
      | some id => .ok (id, base.text)

/-- Model of Rust's `str::trim_right` (std, external to the repository):
drop trailing whitespace. -/
def trimRightStr (s : String) : String :=
  String.mk ((s.data.reverse.dropWhile Char.isWhitespace).reverse)

/-- Embeds `parse_listeners` (src/feed/scrape.rs lines 138-149), taking the query
result for the `Class("c").and(Class("m"))` node text as input. -/
def parse_listeners (listenersText : Option String) : Except ScrapeError Nat :=
  match listenersText with
  | none => .error (.NoElement "feed listeners")
  | some text =>
    match parseU32String (trimRightStr text) with
    | none => .error (.FailedIntParse "feed listeners")
    | some n => .ok n

/-- One `tr` row of the top listing, abstracted to the query results the
scraper extracts from it: the `w100`-class anchor, the hyperlinks (href and
text) of the second `td`, the `c`+`m` node text, and the `messageBox` text. -/
structure TopRow where
  idName : Option Anchor
  locationAnchors : Option (List (String × String))
  listenersText : Option String
  messageBox : Option String
deriving DecidableEq, Repr

/-- The body of the row loop of `scrape_top` (src/feed/scrape.rs lines
26-63). -/
def processTopRow (row : TopRow) : Except ScrapeError Feed :=
  match parse_id_and_name row.idName with
  | .error e => .error e
  | .ok (id, name) =>
    match row.locationAnchors with
    | none => .error (.NoElement "location")
    | some anchors =>
      match anchors.head? with
      | none => .error (.NoElement "state data")
      | some (state_link, state_abbrev) =>
        match parse_link_id state_link with
        | none => .error (.NoElement "state id")
        | some sidStr =>
          match parseU32String sidStr with
          | none => .error (.FailedIntParse "state id")
          | some state_id =>
            match parse_listeners row.listenersText with
            | .error e => .error e
            | .ok listeners =>
              .ok
                { id, name, listeners
                  state := { id := state_id, abbreviation := state_abbrev }
                  county :=
                    match (anchors.drop 1).head? with
                    | some (link, text) =>
                      if link.startsWith "/listen/ctid" then text else "Numerous"
                    | none => "Numerous"
                  alert := row.messageBox }

/-- The row loop of `scrape_top`: `?` on a row error aborts the whole call. -/
def scrapeRows {ρ : Type} (f : ρ → Except ScrapeError Feed) :
    List ρ → Except ScrapeError (List Feed)
  | [] => .ok []
  | r :: rest =>
    match f r with
    | .error e => .error e
    | .ok feed =>
      match scrapeRows f rest with
      | .error e => .error e
      | .ok feeds => .ok (feed :: feeds)

/-- Embeds `scrape_top` (src/feed/scrape.rs lines 20-70), taking the query result
`doc.find(Class("btable").descendant(tr))` as its row list; `skip(1)` drops
the header row, and an empty harvest is the `NoneFound` error. -/
def scrape_top (rows : List TopRow) : Except ScrapeError (List Feed) :=
  match scrapeRows processTopRow (rows.drop 1) with
  | .error e => .error e
  | .ok feeds =>
    if feeds.isEmpty then .error ScrapeError.NoneFound
    else .ok feeds

/-- One `tr` row of a state listing, abstracted to the query results the
scraper extracts: the `w1p`-class anchor, the first hyperlink's text, the
first `font.fontRed` text, and the `c`+`m` node text. -/
structure StateRow where
  idName : Option Anchor
  firstAnchorText : Option String
  fontRedText : Option String
  listenersText : Option String
deriving DecidableEq, Repr

/-- The body of the row loop of `scrape_state` (src/feed/scrape.rs lines
95-115). -/
def processStateRow (state : State) (row : StateRow) : Except ScrapeError Feed :=
  match parse_id_and_name row.idName with
  | .error e => .error e
  | .ok (id, name) =>
    match parse_listeners row.listenersText with
    | .error e => .error e
    | .ok listeners =>
      .ok
        { id, name, listeners, state
          county := row.firstAnchorText.getD "Numerous"
          alert := row.fontRedText }

/-- Embeds `scrape_state` (src/feed/scrape.rs lines 72-122), taking the query
result `doc.find(Class("btable"))` as a list of tables (each a row list):
no table is an error; with two or more, the second is the real feed table
(the first is the skipped areawide section). -/
def scrape_state (state : State) (tables : List (List StateRow)) :
    Except ScrapeError (List Feed) :=
  match tables.take 2 with
  | [] => .error (.NoElement "feed data")
  | [t] | _ :: t :: _ =>
    match scrapeRows (processStateRow state) (t.drop 1) with
    | .error e => .error e
    | .ok feeds =>
      if feeds.isEmpty then .error ScrapeError.NoneFound
      else .ok feeds

/-- Weekday tag of a `WeekdaySpike` case. -/
def WeekdaySpike.tag : WeekdaySpike → Weekday
  | .Sunday _ => .Sun
  | .Monday _ => .Mon
  | .Tuesday _ => .Tue
  | .Wednesday _ => .Wed
  | .Thursday _ => .Thu
  | .Friday _ => .Fri
  | .Saturday _ => .Sat

/-- Spike payload of a `WeekdaySpike` case. -/
def WeekdaySpike.spikeOf : WeekdaySpike → Spike
  | .Sunday s => s
  | .Monday s => s
  | .Tuesday s => s
  | .Wednesday s => s
  | .Thursday s => s
  | .Friday s => s
  | .Saturday s => s

/-- Spec-side (§4.3 step 2/3 wording): scan the sequence in order for the
first case whose weekday tag equals today, returning its Spike. -/
def weekdaySpikeForSpec (today : Weekday) (l : List WeekdaySpike) : Option Spike :=
  (l.find? fun ws => ws.tag == today).map WeekdaySpike.spikeOf

/-- Spec-side (§4.3 step 1 wording): scan feed_settings in order and select
the first entry whose ident matches the feed. -/
def findFeedSettingSpec (feed : Feed) : List FeedSetting → Option FeedSetting
  | [] => none
  | s :: rest =>
    if s.ident.matches_feed feed then some s else findFeedSettingSpec feed rest

/-- Spec-side (§4.3 wording): the full precedence algorithm. -/
def resolveSpec (cfg : Config) (feed : Feed) (today : Weekday) : Spike :=
  match findFeedSettingSpec feed cfg.feed_settings with
  | some setting =>
    match weekdaySpikeForSpec today setting.weekday_spikes with
    | some s => s
    | none => setting.spike
  | none =>
    match weekdaySpikeForSpec today cfg.weekday_spikes with
    | some s => s
    | none => cfg.global_spike

/-- Spec-side (§9 wording): the ordered (candidate key, decode function)
pairs for `FeedIdent`, data rather than control flow. -/
def feedIdentCandidates : List (String × (Yaml → Option FeedIdent)) :=
  [("Name", fun e => (parseString e).map FeedIdent.Name),
   ("ID", fun e => (parseU32 e).map FeedIdent.ID),
   ("County", fun e => (parseString e).map FeedIdent.County),
   ("State ID", fun e => (parseU32 e).map FeedIdent.State)]

/-- Spec-side: try the candidate keys in sequence; the first key present
with a successfully-decoded value wins. -/
def probeFirst (doc : Yaml) :
    List (String × (Yaml → Option FeedIdent)) → Option FeedIdent
  | [] => none
  | (key, dec) :: rest =>
    let e := doc.idx key
    if e.is_badvalue then probeFirst doc rest
    else
      match dec e with
      | some v => some v
      | none => probeFirst doc rest

theorem get_for_today_eq_spec (date : LocalDate) (l : List WeekdaySpike) :
    WeekdaySpike.get_for_today date l = weekdaySpikeForSpec date.weekday l := by
  induction l with
  | nil => rfl
  | cons ws rest ih =>
    cases date with
    | mk w d =>
      cases w <;> cases ws <;> first | rfl | exact ih

theorem find?_eq_findFeedSettingSpec (feed : Feed) (l : List FeedSetting) :
    l.find? (fun s => s.ident.matches_feed feed) = findFeedSettingSpec feed l := by
  induction l with
  | nil => rfl
  | cons s rest ih =>
    by_cases h : s.ident.matches_feed feed = true <;>
      simp [List.find?_cons, findFeedSettingSpec, h, ih]

theorem get_feed_spike_eq_resolveSpec (cfg : Config) (date : LocalDate) (feed : Feed) :
    cfg.get_feed_spike date feed = resolveSpec cfg feed date.weekday := by
  unfold Config.get_feed_spike resolveSpec
  rw [find?_eq_findFeedSettingSpec]
  cases findFeedSettingSpec feed cfg.feed_settings with
  | none =>
    simp only [get_for_today_eq_spec]
    cases weekdaySpikeForSpec date.weekday cfg.weekday_spikes <;> rfl
  | some setting =>
    simp only [get_for_today_eq_spec]
    cases weekdaySpikeForSpec date.weekday setting.weekday_spikes <;> rfl

theorem feedIdent_fromYaml_eq_probe (doc : Yaml) :
    FeedIdent.fromYaml doc = probeFirst doc feedIdentCandidates := by
  unfold FeedIdent.fromYaml
  cases h1 : (doc.idx "Name").is_badvalue <;>
  cases hp1 : parseString (doc.idx "Name") <;>
  cases h2 : (doc.idx "ID").is_badvalue <;>
  cases hp2 : parseU32 (doc.idx "ID") <;>
  cases h3 : (doc.idx "County").is_badvalue <;>
  cases hp3 : parseString (doc.idx "County") <;>
  cases h4 : (doc.idx "State ID").is_badvalue <;>
  cases hp4 : parseU32 (doc.idx "State ID") <;>
  simp [probeFirst, feedIdentCandidates, h1, hp1, h2, hp2, h3, hp3, h4, hp4]

theorem sortFeeds_pairwise_le (l : List Feed) :
    (sortFeeds l).Pairwise fun a b => a.id ≤ b.id := by
  have h :=
    @List.sorted_mergeSort Feed (fun a b => a.id ≤ b.id)
      (by intro a b c hab hbc; simp at hab hbc ⊢; omega)
      (by intro a b; simp; omega) l
  exact h.imp fun hab => of_decide_eq_true hab

theorem sortFeeds_perm (l : List Feed) : (sortFeeds l).Perm l :=
  List.mergeSort_perm l _

theorem dedupFeeds_subset (l : List Feed) : ∀ x ∈ dedupFeeds l, x ∈ l := by
  induction l using dedupFeeds.induct with
  | case1 => intro x hx; exact absurd hx (by simp [dedupFeeds])
  | case2 a => intro x hx; simpa [dedupFeeds] using hx
  | case3 a b rest heq ih =>
    intro x hx
    rw [dedupFeeds, if_pos heq] at hx
    have := ih x hx
    simp at this ⊢
    tauto
  | case4 a b rest heq ih =>
    intro x hx
    rw [dedupFeeds, if_neg heq] at hx
    simp at hx ⊢
    rcases hx with h | h
    · exact Or.inl h
    · have := ih x h
      simp at this
      tauto

theorem dedupFeeds_pairwise_lt (l : List Feed)
    (h : l.Pairwise fun a b => a.id ≤ b.id) :
    (dedupFeeds l).Pairwise fun a b => a.id < b.id := by
  induction l using dedupFeeds.induct with
  | case1 => simp [dedupFeeds]
  | case2 a => simp [dedupFeeds]
  | case3 a b rest heq ih =>
    rw [dedupFeeds, if_pos heq]
    apply ih
    rcases List.pairwise_cons.mp h with ⟨ha, hrest⟩
    rcases List.pairwise_cons.mp hrest with ⟨_, hrest2⟩
    exact List.pairwise_cons.mpr ⟨fun x hx => ha x (by simp [hx]), hrest2⟩
  | case4 a b rest heq ih =>
    rw [dedupFeeds, if_neg heq]
    rcases List.pairwise_cons.mp h with ⟨ha, hrest⟩
    refine List.pairwise_cons.mpr ⟨?_, ih hrest⟩
    intro x hx
    have hxmem := dedupFeeds_subset _ x hx
    have hab : a.id ≠ b.id := by simpa using heq
    have haleb : a.id ≤ b.id := ha b (by simp)
    rcases List.mem_cons.mp hxmem with rfl | hxrest
    · omega
    · have hbx : b.id ≤ x.id :=
        (List.pairwise_cons.mp hrest).1 x hxrest
      omega

theorem dedupFeeds_mem_id (l : List Feed) (x : Nat)
    (h : ∃ f ∈ l, f.id = x) : ∃ f ∈ dedupFeeds l, f.id = x := by
  induction l using dedupFeeds.induct with
  | case1 => simp at h
  | case2 a => simpa [dedupFeeds] using h
  | case3 a b rest heq ih =>
    rw [dedupFeeds, if_pos heq]
    apply ih
    rcases h with ⟨f, hf, hfx⟩
    have hab : a.id = b.id := by simpa using heq
    rcases List.mem_cons.mp hf with rfl | hf2
    · exact ⟨f, by simp, hfx⟩
    rcases List.mem_cons.mp hf2 with rfl | hf3
    · exact ⟨a, by simp, by omega⟩
    · exact ⟨f, by simp [hf3], hfx⟩
  | case4 a b rest heq ih =>
    rw [dedupFeeds, if_neg heq]
    rcases h with ⟨f, hf, hfx⟩
    rcases List.mem_cons.mp hf with rfl | hf2
    · exact ⟨f, by simp, hfx⟩
    · rcases ih ⟨f, hf2, hfx⟩ with ⟨g, hg, hgx⟩
      exact ⟨g, by simp [hg], hgx⟩

theorem countP_id_le_one (l : List Feed) (x : Nat)
    (h : l.Pairwise fun a b => a.id < b.id) :
    l.countP (fun f => f.id == x) ≤ 1 := by
  induction l with
  | nil => simp
  | cons a rest ih =>
    rw [List.countP_cons]
    rcases List.pairwise_cons.mp h with ⟨ha, hrest⟩
    by_cases hax : a.id = x
    · have hzero : rest.countP (fun f => f.id == x) = 0 := by
        rw [List.countP_eq_zero]
        intro f hf
        have := ha f hf
        simp only [beq_iff_eq]
        omega
      simp [hzero, hax]
    · have hfalse : (a.id == x) = false := by simpa using hax
      rw [hfalse]
      simpa using ih hrest

theorem scrape_top_ok_ne_nil (rows : List TopRow) (feeds : List Feed)
    (h : scrape_top rows = .ok feeds) : feeds ≠ [] := by
  unfold scrape_top at h
  cases hr : scrapeRows processTopRow (rows.drop 1) with
  | error e => rw [hr] at h; cases h
  | ok fs =>
    rw [hr] at h
    by_cases he : fs.isEmpty = true
    · simp [he] at h
    · simp [he] at h
      subst h
      simpa [List.isEmpty_iff] using he

theorem scrape_state_ok_ne_nil (st : State) (tables : List (List StateRow))
    (feeds : List Feed) (h : scrape_state st tables = .ok feeds) : feeds ≠ [] := by
  unfold scrape_state at h
  split at h
  · cases h
  · rename_i t htk
    cases hr : scrapeRows (processStateRow st) (t.drop 1) with
    | error e => rw [hr] at h; cases h
    | ok fs =>
      rw [hr] at h
      by_cases he : fs.isEmpty = true
      · simp [he] at h
      · simp [he] at h
        subst h
        simpa [List.isEmpty_iff] using he
  · rename_i x head t tail htk
    cases hr : scrapeRows (processStateRow st) (t.drop 1) with
    | error e => rw [hr] at h; cases h
    | ok fs =>
      rw [hr] at h
      by_cases he : fs.isEmpty = true
      · simp [he] at h
      · simp [he] at h
        subst h
        simpa [List.isEmpty_iff] using he

theorem scrape_top_empty_noneFound (rows : List TopRow)
    (h : scrapeRows processTopRow (rows.drop 1) = .ok []) :
    scrape_top rows = .error ScrapeError.NoneFound := by
  unfold scrape_top
  rw [h]
  rfl

theorem scrape_state_empty_noneFound (st : State) (t : List StateRow)
    (h : scrapeRows (processStateRow st) (t.drop 1) = .ok []) :
    scrape_state st [t] = .error ScrapeError.NoneFound := by
  have h2 : scrapeRows (processStateRow st) t.tail = Except.ok [] := by
    simpa [List.drop_one] using h
  simp [scrape_state, h2]

theorem processTopRow_alert (row : TopRow) (feed : Feed)
    (h : processTopRow row = .ok feed) : feed.alert = row.messageBox := by
  unfold processTopRow at h
  cases h1 : parse_id_and_name row.idName with
  | error e => rw [h1] at h; cases h
  | ok p =>
    obtain ⟨id, name⟩ := p
    rw [h1] at h
    simp only [] at h
    cases h2 : row.locationAnchors with
    | none => rw [h2] at h; cases h
    | some anchors =>
      rw [h2] at h
      simp only [] at h
      cases h3 : anchors.head? with
      | none => rw [h3] at h; cases h
      | some q =>
        obtain ⟨state_link, state_abbrev⟩ := q
        rw [h3] at h
        simp only [] at h
        cases h4 : parse_link_id state_link with
        | none => rw [h4] at h; cases h
        | some sidStr =>
          rw [h4] at h
          simp only [] at h
          cases h5 : parseU32String sidStr with
          | none => rw [h5] at h; cases h
          | some state_id =>
            rw [h5] at h
            simp only [] at h
            cases h6 : parse_listeners row.listenersText with
            | error e => rw [h6] at h; cases h
            | ok listeners =>
              rw [h6] at h
              cases h
              rfl

theorem processStateRow_alert (st : State) (row : StateRow) (feed : Feed)
    (h : processStateRow st row = .ok feed) : feed.alert = row.fontRedText := by
  unfold processStateRow at h
  cases h1 : parse_id_and_name row.idName with
  | error e => rw [h1] at h; cases h
  | ok p =>
    obtain ⟨id, name⟩ := p
    rw [h1] at h
    simp only [] at h
    cases h2 : parse_listeners row.listenersText with
    | error e => rw [h2] at h; cases h
    | ok listeners =>
      rw [h2] at h
      cases h
      rfl

theorem sortAndDedup_countP (l : List Feed) (x : Nat)
    (h : ∃ f ∈ l, f.id = x) :
    (dedupFeeds (sortFeeds l)).countP (fun f => f.id == x) = 1 := by
  have hperm := sortFeeds_perm l
  have hmem : ∃ f ∈ sortFeeds l, f.id = x := by
    rcases h with ⟨f, hf, hfx⟩
    exact ⟨f, hperm.mem_iff.mpr hf, hfx⟩
  have hmem2 := dedupFeeds_mem_id _ x hmem
  have hlt := dedupFeeds_pairwise_lt _ (sortFeeds_pairwise_le l)
  have hle := countP_id_le_one _ x hlt
  have hpos : 0 < (dedupFeeds (sortFeeds l)).countP (fun f => f.id == x) := by
    rw [List.countP_pos_iff]
    rcases hmem2 with ⟨f, hf, hfx⟩
    exact ⟨f, hf, by simpa using hfx⟩
  omega

theorem clampMin_le_self (lo v : ℚ) : lo ≤ clampMin lo v := by
  unfold clampMin
  split
  · exact le_refl lo
  · linarith [not_lt.mp (by assumption : ¬ v < lo)]

theorem clampMin_of_lt (lo v : ℚ) (h : v < lo) : clampMin lo v = lo :=
  if_pos h

theorem clampMin_of_ge (lo v : ℚ) (h : lo ≤ v) : clampMin lo v = v :=
  if_neg (not_lt.mpr h)

theorem download_and_scrape_ok (cfg : Config)
    (top stateRes : Except AcquireError (List Feed)) (feeds : List Feed)
    (h : Feed.download_and_scrape cfg top stateRes = .ok feeds) :
    ∃ l, feeds = dedupFeeds (sortFeeds l) := by
  unfold Feed.download_and_scrape at h
  cases top with
  | error e => cases h
  | ok tf =>
    cases hs : cfg.misc.state_feeds_id with
    | none =>
      rw [hs] at h
      cases h
      exact ⟨_, rfl⟩
    | some sid =>
      rw [hs] at h
      cases stateRes with
      | error e => cases h
      | ok sf =>
        cases h
        exact ⟨_, rfl⟩

/-- C1: for every config, feed and ambient day, `get_feed_spike` scans
`feed_settings` in order for the first ident match; if found it returns the
Spike of the first `weekday_spikes` case matching today, falling back to the
setting's own spike; otherwise the first match in the global
`weekday_spikes`, falling back to `global_spike`. Being a total function it
always returns a value. -/
theorem c1_get_feed_spike_precedence (cfg : Config) (date : LocalDate) (feed : Feed) :
    cfg.get_feed_spike date feed = resolveSpec cfg feed date.weekday :=
  get_feed_spike_eq_resolveSpec cfg date feed

/-- C2 (evaluation at the failing input): with the two-entry blacklist
`[ID 1, ID 2]` and no whitelist, the feed with id 1 matches the blacklist
ident `ID 1` yet is retained, because the code removes a feed only when
every blacklist entry matches it. The claim's own singleton example (the
whitelist/blacklist pair `ID 1`) does behave as claimed. -/
theorem c2_blacklist_filter_failing_input :
    (FeedIdent.ID 1).matches_feed
      { id := 1, name := "a", listeners := 0,
        state := { id := 0, abbreviation := "" }, county := "c", alert := none } = true ∧
    filter_whitelist_blacklist
      { Config.default with blacklist := [FeedIdent.ID 1, FeedIdent.ID 2] }
      [{ id := 1, name := "a", listeners := 0,
         state := { id := 0, abbreviation := "" }, county := "c", alert := none }] =
      [{ id := 1, name := "a", listeners := 0,
         state := { id := 0, abbreviation := "" }, county := "c", alert := none }] ∧
    filter_whitelist_blacklist
      { Config.default with whitelist := [FeedIdent.ID 1], blacklist := [FeedIdent.ID 1] }
      [{ id := 1, name := "a", listeners := 0,
         state := { id := 0, abbreviation := "" }, county := "c", alert := none },
       { id := 2, name := "a", listeners := 0,
         state := { id := 0, abbreviation := "" }, county := "c", alert := none }] = [] := by
  exact ⟨rfl, rfl, rfl⟩

/-- C3 counterexample: with config and feed fixed, changing only the ambient
date (modelling the internal `Local::today()` read) changes the returned
Spike, so the resolver is not a pure function of a caller-supplied
`(config, feed, today)` triple — there is no `today` parameter and the
weekday is read internally from the clock. -/
theorem c3_resolver_reads_ambient_clock :
    Config.get_feed_spike
      { Config.default with
          weekday_spikes := [WeekdaySpike.Monday ⟨1, 1, 1, 1⟩] }
      { weekday := Weekday.Mon, day := 5 }
      { id := 1, name := "a", listeners := 0,
        state := { id := 0, abbreviation := "" }, county := "c", alert := none } ≠
    Config.get_feed_spike
      { Config.default with
          weekday_spikes := [WeekdaySpike.Monday ⟨1, 1, 1, 1⟩] }
      { weekday := Weekday.Tue, day := 5 }
      { id := 1, name := "a", listeners := 0,
        state := { id := 0, abbreviation := "" }, county := "c", alert := none } := by
  intro h
  have hj : (1 : ℚ) = 0.3 := congrArg Spike.jump h
  norm_num at hj

/-- C3 (amended): the weekday is obtained internally from the local clock,
not from a caller parameter; the resolver is nonetheless deterministic in
(config, feed, ambient weekday): it depends on the ambient date only
through its weekday. -/
theorem c3_resolver_pure_in_ambient_weekday (cfg : Config) (feed : Feed)
    (d d' : LocalDate) (h : d.weekday = d'.weekday) :
    cfg.get_feed_spike d feed = cfg.get_feed_spike d' feed := by
  rw [get_feed_spike_eq_resolveSpec, get_feed_spike_eq_resolveSpec, h]

/-- Witness for the amended C3 theorem at two concrete dates sharing a
weekday. -/
theorem c3_resolver_pure_in_ambient_weekday_witness :
    ((⟨Weekday.Mon, 3⟩ : LocalDate).weekday = (⟨Weekday.Mon, 9⟩ : LocalDate).weekday) ∧
    Config.default.get_feed_spike ⟨Weekday.Mon, 3⟩
      { id := 1, name := "a", listeners := 0,
        state := { id := 0, abbreviation := "" }, county := "c", alert := none } =
    Config.default.get_feed_spike ⟨Weekday.Mon, 9⟩
      { id := 1, name := "a", listeners := 0,
        state := { id := 0, abbreviation := "" }, county := "c", alert := none } :=
  ⟨rfl,
   c3_resolver_pure_in_ambient_weekday Config.default
     { id := 1, name := "a", listeners := 0,
       state := { id := 0, abbreviation := "" }, county := "c", alert := none }
     ⟨Weekday.Mon, 3⟩ ⟨Weekday.Mon, 9⟩ rfl⟩

/-- C4 counterexample: `jump` has a plain literal default `0.3` and no
`[min, default]` clamp, so a raw `Jump Required` of `-1` parses to `-1`,
below the claimed minimum `0`. -/
theorem c4_jump_not_clamped :
    ∃ s : Spike,
      Spike.fromYaml (Yaml.hash [("Jump Required", Yaml.integer (-1))]) = some s ∧
      s.jump < 0 := by
  refine ⟨_, rfl, ?_⟩
  show ((-1 : Int) : ℚ) < 0
  norm_num

/-- C4 (amended): of Spike's four fields only `low_listener_increase`,
`high_listener_dec` and `high_listener_dec_every` carry a declared minimum
(`jump` has a plain default and is not clamped); every `[min, default]`
field — these three, the three clamped UnskewedAverage fields, and
`Misc.update_time` — is at least its minimum after parsing, a parsed value
below the minimum is replaced by exactly the minimum, and a parsed value at
or above the minimum is kept unchanged. -/
theorem c4_declared_minimum_clamping :
    (∀ (doc : Yaml) (s : Spike), Spike.fromYaml doc = some s →
       0 ≤ s.low_listener_increase ∧ 0 ≤ s.high_listener_dec ∧
       1 ≤ s.high_listener_dec_every) ∧
    (∀ (doc : Yaml) (u : UnskewedAverage), UnskewedAverage.fromYaml doc = some u →
       0 ≤ u.reset_pcnt ∧ 0 ≤ u.adjust_pcnt ∧ (1.1 : ℚ) ≤ u.jump_required) ∧
    (∀ (doc : Yaml) (m : Misc), Misc.fromYaml doc = some m → 5 ≤ m.update_time) ∧
    (∀ lo v : ℚ, (v < lo → clampMin lo v = lo) ∧ (lo ≤ v → clampMin lo v = v)) ∧
    (∀ (doc : Yaml) (v : ℚ) (s : Spike),
       parseF32 (doc.idx "Low Listener Increase") = some v →
       Spike.fromYaml doc = some s →
       (v < 0 → s.low_listener_increase = 0) ∧
       (0 ≤ v → s.low_listener_increase = v)) := by
  refine ⟨?_, ?_, ?_, ?_, ?_⟩
  · intro doc s h
    cases h
    exact ⟨clampMin_le_self 0 _, clampMin_le_self 0 _, clampMin_le_self 1 _⟩
  · intro doc u h
    cases h
    exact ⟨clampMin_le_self 0 _, clampMin_le_self 0 _, clampMin_le_self 1.1 _⟩
  · intro doc m h
    cases h
    exact clampMin_le_self 5 _
  · intro lo v
    exact ⟨clampMin_of_lt lo v, clampMin_of_ge lo v⟩
  · intro doc v s hp h
    cases h
    constructor
    · intro hv
      show clampMin 0 ((parseF32 (doc.idx "Low Listener Increase")).getD 0.005) = 0
      rw [hp]
      exact clampMin_of_lt 0 v hv
    · intro hv
      show clampMin 0 ((parseF32 (doc.idx "Low Listener Increase")).getD 0.005) = v
      rw [hp]
      exact clampMin_of_ge 0 v hv

/-- Witness for the amended C4 theorem: a raw `Low Listener Increase` of
`-3` is clamped to exactly the minimum `0`, and the clamp rules evaluate as
stated at `-3` and `7`. -/
theorem c4_declared_minimum_clamping_witness :
    ∃ s : Spike,
      Spike.fromYaml (Yaml.hash [("Low Listener Increase", Yaml.integer (-3))]) = some s ∧
      s.low_listener_increase = 0 ∧ 0 ≤ s.low_listener_increase ∧
      clampMin 0 (-3) = 0 ∧ clampMin 0 7 = 7 := by
  refine ⟨_, rfl, ?_, ?_, ?_, ?_⟩
  · exact (c4_declared_minimum_clamping.2.2.2.2
      (Yaml.hash [("Low Listener Increase", Yaml.integer (-3))])
      ((-3 : Int) : ℚ) _ rfl rfl).1 (by norm_num)
  · exact (c4_declared_minimum_clamping.1 _ _ rfl).1
  · exact (c4_declared_minimum_clamping.2.2.2.1 0 (-3)).1 (by norm_num)
  · exact (c4_declared_minimum_clamping.2.2.2.1 0 7).2 (by norm_num)

/-- C5 counterexample: a config document whose single Feed Settings entry
has no parseable ident loads successfully — the entry is silently dropped
(`feed_settings` ends up empty) instead of the load failing. -/
theorem c5_missing_ident_load_succeeds :
    FeedIdent.fromYaml (Yaml.hash [("Spike Percentages", Yaml.hash [])]) = none ∧
    Config.from_file (Except.ok "Feed Settings:")
      (Except.ok [Yaml.hash
        [("Feed Settings",
          Yaml.array [Yaml.hash [("Spike Percentages", Yaml.hash [])]])]]) =
      LoadOutcome.ok (Config.parse (Yaml.hash
        [("Feed Settings",
          Yaml.array [Yaml.hash [("Spike Percentages", Yaml.hash [])]])])) ∧
    (Config.parse (Yaml.hash
        [("Feed Settings",
          Yaml.array [Yaml.hash [("Spike Percentages", Yaml.hash [])]])])).feed_settings =
      [] :=
  ⟨rfl, rfl, rfl⟩

/-- C5 (amended): a Feed Settings entry whose ident is absent or
unparseable makes that entry's `FeedSetting` parse return `none`; the `all`
rule then drops the entry from the list, and the config load itself
succeeds — the `fail` rule aborts only the entry's own parse, not the whole
load. -/
theorem c5_unparseable_ident_dropped_not_fatal :
    (∀ entry : Yaml, FeedIdent.fromYaml entry = none →
       FeedSetting.fromYaml entry = none) ∧
    (∀ (pre post : List Yaml) (entry : Yaml), FeedSetting.fromYaml entry = none →
       parseAll FeedSetting.fromYaml (Yaml.array (pre ++ entry :: post)) =
         parseAll FeedSetting.fromYaml (Yaml.array (pre ++ post))) ∧
    (∀ (file : String) (doc : Yaml) (rest : List Yaml), file.length ≠ 0 →
       Config.from_file (Except.ok file) (Except.ok (doc :: rest)) =
         LoadOutcome.ok (Config.parse doc)) := by
  refine ⟨?_, ?_, ?_⟩
  · intro entry h
    unfold FeedSetting.fromYaml
    rw [h]
    rfl
  · intro pre post entry h
    simp [parseAll, Yaml.as_vec, List.filterMap_append, List.filterMap_cons, h]
  · intro file doc rest h
    have hb : (file.length == 0) = false := by simpa using h
    simp [Config.from_file, hb]

/-- Witness for the amended C5 theorem at concrete inputs. -/
theorem c5_unparseable_ident_dropped_not_fatal_witness :
    FeedSetting.fromYaml (Yaml.string "x") = none ∧
    parseAll FeedSetting.fromYaml (Yaml.array [Yaml.string "x"]) = [] ∧
    Config.from_file (Except.ok "a") (Except.ok [Yaml.badValue]) =
      LoadOutcome.ok (Config.parse Yaml.badValue) := by
  refine ⟨?_, ?_, ?_⟩
  · exact c5_unparseable_ident_dropped_not_fatal.1 _ rfl
  · have h2 := c5_unparseable_ident_dropped_not_fatal.2.1 [] [] (Yaml.string "x")
      (c5_unparseable_ident_dropped_not_fatal.1 _ rfl)
    simpa [parseAll, Yaml.as_vec] using h2
  · exact c5_unparseable_ident_dropped_not_fatal.2.2 "a" _ [] (by decide)

/-- C6: loading from an empty file succeeds with the fully-defaulted
Config, whose fields carry exactly the documented default values. -/
theorem c6_empty_file_yields_default_config :
    (∀ docs : Except Unit (List Yaml),
       Config.from_file (Except.ok "") docs = LoadOutcome.ok Config.default) ∧
    Config.default.global_spike =
      { jump := 0.3, low_listener_increase := 0.005,
        high_listener_dec := 0.02, high_listener_dec_every := 100 } ∧
    Config.default.unskewed_avg =
      { reset_pcnt := 0.15, adjust_pcnt := 0.0075,
        spikes_required := 1, jump_required := 4 } ∧
    Config.default.weekday_spikes = [] ∧
    Config.default.feed_settings = [] ∧
    Config.default.blacklist = [] ∧
    Config.default.whitelist = [] ∧
    Config.default.misc =
      { update_time := 6, minimum_listeners := 15,
        state_feeds_id := none, max_feeds := 10 } ∧
    Config.default.sorting =
      { sort_type := SortType.Listeners, sort_order := SortOrder.Descending } :=
  ⟨fun _ => rfl, rfl, rfl, rfl, rfl, rfl, rfl, rfl, rfl⟩

/-- C7: after the acquisition sort and dedup steps the feed sequence is
strictly ascending by id (hence sorted with no two equal ids), any id
present in the input survives in exactly one record, and every successful
acquisition result is of that shape. -/
theorem c7_sort_dedup_sorted_unique :
    (∀ l : List Feed,
       (dedupFeeds (sortFeeds l)).Pairwise fun a b => a.id < b.id) ∧
    (∀ (l : List Feed) (x : Nat), (∃ f ∈ l, f.id = x) →
       (dedupFeeds (sortFeeds l)).countP (fun f => f.id == x) = 1) ∧
    (∀ (cfg : Config) (top stateRes : Except AcquireError (List Feed))
       (feeds : List Feed),
       Feed.download_and_scrape cfg top stateRes = Except.ok feeds →
       feeds.Pairwise fun a b => a.id < b.id) := by
  refine ⟨?_, ?_, ?_⟩
  · intro l
    exact dedupFeeds_pairwise_lt _ (sortFeeds_pairwise_le l)
  · intro l x h
    exact sortAndDedup_countP l x h
  · intro cfg top stateRes feeds h
    rcases download_and_scrape_ok cfg top stateRes feeds h with ⟨l, rfl⟩
    exact dedupFeeds_pairwise_lt _ (sortFeeds_pairwise_le l)

/-- Witness for C7: two records with id 1 differing in every other field,
plus one with id 2; exactly one record with id 1 survives. -/
theorem c7_sort_dedup_sorted_unique_witness :
    (dedupFeeds (sortFeeds
      [{ id := 1, name := "a", listeners := 0,
         state := { id := 0, abbreviation := "" }, county := "c", alert := none },
       { id := 1, name := "b", listeners := 9,
         state := { id := 2, abbreviation := "z" }, county := "d", alert := some "w" },
       { id := 2, name := "e", listeners := 1,
         state := { id := 3, abbreviation := "y" }, county := "f", alert := none }])).countP
      (fun f => f.id == 1) = 1 :=
  c7_sort_dedup_sorted_unique.2.1 _ 1
    ⟨{ id := 1, name := "a", listeners := 0,
       state := { id := 0, abbreviation := "" }, county := "c", alert := none },
     by simp, rfl⟩

/-- C8: a successful scrape of either page shape never returns an empty
feed list; when the row loop completes with zero feeds the error is
`NoneFound`; and a row without an alert marker still yields a Feed, whose
alert is simply the (absent) marker text. -/
theorem c8_scrape_never_ok_empty :
    (∀ (rows : List TopRow) (feeds : List Feed),
       scrape_top rows = Except.ok feeds → feeds ≠ []) ∧
    (∀ (st : State) (tables : List (List StateRow)) (feeds : List Feed),
       scrape_state st tables = Except.ok feeds → feeds ≠ []) ∧
    (∀ rows : List TopRow,
       scrapeRows processTopRow (rows.drop 1) = Except.ok [] →
       scrape_top rows = Except.error ScrapeError.NoneFound) ∧
    (∀ (st : State) (t : List StateRow),
       scrapeRows (processStateRow st) (t.drop 1) = Except.ok [] →
       scrape_state st [t] = Except.error ScrapeError.NoneFound) ∧
    (∀ (row : TopRow) (feed : Feed),
       processTopRow row = Except.ok feed → feed.alert = row.messageBox) ∧
    (∀ (st : State) (row : StateRow) (feed : Feed),
       processStateRow st row = Except.ok feed → feed.alert = row.fontRedText) :=
  ⟨scrape_top_ok_ne_nil, scrape_state_ok_ne_nil, scrape_top_empty_noneFound,
   scrape_state_empty_noneFound, processTopRow_alert, processStateRow_alert⟩

/-- Witness for C8: a document with only a header row scrapes to
`NoneFound`, and a fully-valid row carrying no message box yields a Feed
with no alert. -/
theorem c8_scrape_never_ok_empty_witness :
    scrape_top
      [{ idName := none, locationAnchors := none,
         listenersText := none, messageBox := none }] =
      Except.error ScrapeError.NoneFound ∧
    ({ id := 42, name := "Test Feed", listeners := 123,
       state := { id := 7, abbreviation := "XX" }, county := "Numerous",
       alert := none } : Feed).alert =
      ({ idName := some { href := some "/listen/feed/42", text := "Test Feed" },
         locationAnchors := some [("/listen/stid/7", "XX")],
         listenersText := some "123", messageBox := none } : TopRow).messageBox := by
  constructor
  · exact c8_scrape_never_ok_empty.2.2.1 _ rfl
  · exact c8_scrape_never_ok_empty.2.2.2.2.1 _ _ rfl

/-- C9: file-read failure and document-scan failure are returned as the
explicit `Io` and `YAMLScan` errors, but a non-empty file on which the YAML
loader yields zero documents (e.g. a comments-only file) makes
`Config::from_file` index `docs[0]` out of bounds and panic, contradicting
the no-ambient-exception policy. -/
theorem c9_zero_document_file_panics :
    Config.from_file (Except.ok "# comment") (Except.ok []) = LoadOutcome.panic ∧
    (∀ docs : Except Unit (List Yaml),
       Config.from_file (Except.error ()) docs = LoadOutcome.err ConfigError.Io) ∧
    Config.from_file (Except.ok "x") (Except.error ()) =
      LoadOutcome.err ConfigError.YAMLScan :=
  ⟨rfl, fun _ => rfl, rfl⟩

/-- C10: `FeedIdent` parsing probes the keys "Name", "ID", "County",
"State ID" in that fixed order and the first key present with a
type-correct value decides the variant: both-keys documents yield `Name`,
and a present-but-unparseable "Name" falls through to "ID" instead of
failing the whole ident. -/
theorem c10_feedident_probe_order :
    (∀ doc : Yaml, FeedIdent.fromYaml doc = probeFirst doc feedIdentCandidates) ∧
    FeedIdent.fromYaml
      (Yaml.hash [("Name", Yaml.string "x"), ("ID", Yaml.integer 5)]) =
      some (FeedIdent.Name "x") ∧
    FeedIdent.fromYaml
      (Yaml.hash [("Name", Yaml.integer 9), ("ID", Yaml.integer 5)]) =
      some (FeedIdent.ID 5) :=
  ⟨feedIdent_fromYaml_eq_probe, by decide, by decide⟩
